import Mathlib

/-
Verification development for the agentlisp resumable evaluator.

Shallow embedding of the data model and the small-step evaluator:
  * the expression / program model from src/ast.py (the four effect
    forms WriteExpr(expr), ReadExpr(), TellExpr(expr), AskExpr(expr)
    follow their construction sites in src/parser.py and their use in
    src/eval.py and src/test_eval.py);
  * the environment, context stack, states and the stepper from
    src/eval.py.

Python dictionaries are embedded as association lists where the most
recent insertion is found first; a Python function that can raise
RuntimeError returns an explicit error value; the stepper, which in
Python returns a state or None or raises, returns a three-way outcome.
-/

/-- A runtime value: Python `Value = Union[int, str]` from src/eval.py. -/
inductive Value where
  | int (n : Int)
  | str (s : String)
deriving DecidableEq, Repr

/-- Python `str(value)` as applied to a Value in src/eval.py
(decimal rendering of integers, identity on strings). -/
def stringify : Value → String
  | .int n => toString n
  | .str s => s

/-- `is_truthy` from src/eval.py: nonzero integer or non-empty string. -/
def is_truthy : Value → Bool
  | .int n => n != 0
  | .str s => s != ""

/-- The expression model: the Expr union of src/ast.py together with the
four effect forms imported by src/eval.py from the same module
(each holding one subexpression, `readE` holding none, exactly as they
are built in src/parser.py).  A LetBinding(name, value) dataclass is
embedded as the pair (name, value). -/
inductive Expr where
  | intLit (value : Int)
  | strLit (value : String)
  | var (name : String)
  | ifE (condition thenE elseE : Expr)
  | letE (bindings : List (String × Expr)) (body : Expr)
  | call (funcName : String) (args : List Expr)
  | write (e : Expr)
  | readE
  | tell (e : Expr)
  | ask (e : Expr)

/-- FunctionDef from src/ast.py: name, parameter names, body. -/
structure FunctionDef where
  name : String
  params : List String
  body : Expr

/-- Program from src/ast.py: an ordered sequence of function definitions. -/
structure Program where
  functions : List FunctionDef

/-- `Program.get_main` from src/ast.py: the first function named "main"
in source order, if any. -/
def Program.get_main (p : Program) : Option FunctionDef :=
  p.functions.find? (fun f => f.name == "main")

/-- The function table built by `create_initial_state` in src/eval.py:
`{func.name: func for func in program.functions}`.  A Python dict
comprehension lets a later entry overwrite an earlier one with the same
key, which the prepend-and-find-first association list reproduces. -/
def funcMap (fs : List FunctionDef) : List (String × FunctionDef) :=
  fs.foldl (fun m f => (f.name, f) :: m) []

/-- Env from src/eval.py: variable bindings plus the shared function
table.  Both dicts are embedded as association lists where the most
recent insertion is found first. -/
structure Env where
  bindings : List (String × Value)
  functions : List (String × FunctionDef)

/-- The evaluation errors src/eval.py raises as RuntimeError, plus the
two fatal conditions of `create_initial_state`, labelled by their
message. -/
inductive EvalError where
  | undefinedVariable (name : String)
  | undefinedFunction (name : String)
  | arityMismatch (funcName : String) (expected got : Nat)
  | noMainFunction
  | mainTakesParams
deriving DecidableEq, Repr

/-- `Env.lookup` from src/eval.py: the bound value, or UndefinedVariable. -/
def Env.lookup (env : Env) (name : String) : Except EvalError Value :=
  match env.bindings.lookup name with
  | some v => .ok v
  | none => .error (.undefinedVariable name)

/-- `Env.extend` from src/eval.py: a new environment with one more
binding, the function table shared unchanged. -/
def Env.extend (env : Env) (name : String) (value : Value) : Env :=
  { env with bindings := (name, value) :: env.bindings }

/-- `Env.extend_many` from src/eval.py: `for name, value in
zip(names, values): new_bindings[name] = value`, i.e. extend pairwise
over the zip of the two lists. -/
def Env.extend_many (env : Env) (names : List String) (values : List Value) : Env :=
  (names.zip values).foldl (fun e p => e.extend p.1 p.2) env

/-- `Env.get_function` from src/eval.py: the definition, or
UndefinedFunction. -/
def Env.get_function (env : Env) (name : String) : Except EvalError FunctionDef :=
  match env.functions.lookup name with
  | some f => .ok f
  | none => .error (.undefinedFunction name)

/-- SysCall from src/eval.py: the four system-call variants. -/
inductive SysCall where
  | readCall (var : String)
  | writeCall (text : String)
  | tellCall (text : String)
  | askCall (var : String) (question : String)

/-- Context from src/eval.py: the pending continuation frames. -/
inductive Context where
  | ifCtx (thenE elseE : Expr)
  | letCtx (varName : String) (remaining : List (String × Expr)) (body : Expr)
  | writeCtx
  | tellCtx
  | askCtx
  | callCtx (funcName : String) (evaluated : List Value) (remaining : List Expr)

/-- State from src/eval.py: Computing, Interop, Done. -/
inductive State where
  | computing (env : Env) (expr : Expr) (contexts : List Context)
  | interop (sys : SysCall) (cont : State)
  | done (value : Value)

/-- `expr_to_value` from src/eval.py: literals are already values. -/
def expr_to_value : Expr → Option Value
  | .intLit n => some (.int n)
  | .strLit s => some (.str s)
  | _ => none

/-- `apply_context` from src/eval.py: apply a value to a context frame.
Python raising RuntimeError is an `.error` result. -/
def apply_context (env : Env) (ctx : Context) (value : Value)
    (contexts : List Context) : Except EvalError State :=
  match ctx with
  | .ifCtx thenE elseE =>
      if is_truthy value then
        .ok (.computing env thenE contexts)
      else
        .ok (.computing env elseE contexts)
  | .letCtx varName remaining body =>
      let newEnv := env.extend varName value
      match remaining with
      | [] => .ok (.computing newEnv body contexts)
      | nextBinding :: rest =>
          .ok (.computing newEnv nextBinding.2
            (Context.letCtx nextBinding.1 rest body :: contexts))
  | .writeCtx =>
      .ok (.interop (.writeCall (stringify value))
        (.computing env (.strLit "") contexts))
  | .tellCtx =>
      .ok (.interop (.tellCall (stringify value))
        (.computing env (.strLit "") contexts))
  | .askCtx =>
      .ok (.interop (.askCall "__ask_result__" (stringify value))
        (.computing (env.extend "__ask_result__" (.str ""))
          (.var "__ask_result__") contexts))
  | .callCtx funcName evaluatedArgs remaining =>
      let evaluated := evaluatedArgs ++ [value]
      match remaining with
      | [] =>
          match env.get_function funcName with
          | .error e => .error e
          | .ok funcDef =>
              if evaluated.length ≠ funcDef.params.length then
                .error (.arityMismatch funcName funcDef.params.length evaluated.length)
              else
                .ok (.computing (env.extend_many funcDef.params evaluated)
                  funcDef.body contexts)
      | nextArg :: rest =>
          .ok (.computing env nextArg
            (Context.callCtx funcName evaluated rest :: contexts))

/-- Outcome of one Python `step` call: returned None, raised, or
returned a next state. -/
inductive StepRes where
  | stuck
  | raised (e : EvalError)
  | next (s : State)

/-- `.stuck` recogniser, Python `step(...) is None`. -/
def StepRes.isStuck : StepRes → Bool
  | .stuck => true
  | _ => false

/-- Lift the result of `apply_context` into a step outcome: returning a
state is progress, a raised error propagates out of `step`. -/
def liftStep : Except EvalError State → StepRes
  | .ok s => .next s
  | .error e => .raised e

/-- The shared tail of the literal and variable branches of `step` in
src/eval.py: a known value either finishes the run or is applied to the
top context frame. -/
def stepValue (env : Env) (value : Value) (contexts : List Context) : StepRes :=
  match contexts with
  | [] => .next (.done value)
  | ctx :: rest => liftStep (apply_context env ctx value rest)

/-- `step` from src/eval.py: one small-step transition.  Done and
Interop states return nothing; a Computing state is decomposed by its
expression.  The trailing `.stuck` of the Computing branch is Python's
final `return None`. -/
def step : State → StepRes
  | .done _ => .stuck
  | .interop _ _ => .stuck
  | .computing env expr contexts =>
    match expr_to_value expr with
    | some value => stepValue env value contexts
    | none =>
      match expr with
      | .var name =>
          match env.bindings.lookup name with
          | none => .raised (.undefinedVariable name)
          | some val => stepValue env val contexts
      | .ifE condition thenE elseE =>
          .next (.computing env condition (Context.ifCtx thenE elseE :: contexts))
      | .letE bindings body =>
          match bindings with
          | [] => .next (.computing env body contexts)
          | firstBinding :: rest =>
              .next (.computing env firstBinding.2
                (Context.letCtx firstBinding.1 rest body :: contexts))
      | .write e =>
          .next (.computing env e (Context.writeCtx :: contexts))
      | .readE =>
          .next (.interop (.readCall "__read_result__")
            (.computing (env.extend "__read_result__" (.str ""))
              (.var "__read_result__") contexts))
      | .tell e =>
          .next (.computing env e (Context.tellCtx :: contexts))
      | .ask e =>
          .next (.computing env e (Context.askCtx :: contexts))
      | .call funcName args =>
          match args with
          | [] =>
              match env.functions.lookup funcName with
              | none => .raised (.undefinedFunction funcName)
              | some funcDef =>
                  if funcDef.params.length ≠ 0 then
                    .raised (.arityMismatch funcName funcDef.params.length 0)
                  else
                    .next (.computing (Env.mk env.bindings env.functions)
                      funcDef.body contexts)
          | firstArg :: rest =>
              .next (.computing env firstArg
                (Context.callCtx funcName [] rest :: contexts))
      | _ => .stuck

/-- `step_with_syscall` from src/eval.py: on an Interop state with a
handler, feed the syscall to the handler; read/ask bind the result text
to the target variable in the continuation's environment when the
continuation is Computing; write/tell discard the result and resume the
continuation unchanged.  On any other state it behaves as `step`. -/
def step_with_syscall (state : State)
    (handler : Option (SysCall → String)) : StepRes :=
  match state with
  | .interop sys cont =>
    match handler with
    | none => .stuck
    | some h =>
      let result := h sys
      match sys with
      | .readCall v =>
          match cont with
          | .computing env e ctxs =>
              .next (.computing (env.extend v (.str result)) e ctxs)
          | _ => .next cont
      | .askCall v _ =>
          match cont with
          | .computing env e ctxs =>
              .next (.computing (env.extend v (.str result)) e ctxs)
          | _ => .next cont
      | _ => .next cont
  | s => step s

/-- `create_initial_state` from src/eval.py: build the function table,
find main, check its parameter count, start Computing main's body with
empty bindings and an empty context stack. -/
def create_initial_state (p : Program) : Except EvalError State :=
  let func_map := funcMap p.functions
  match p.get_main with
  | none => .error .noMainFunction
  | some mainFunc =>
      if mainFunc.params.length ≠ 0 then .error .mainTakesParams
      else .ok (.computing (Env.mk [] func_map) mainFunc.body [])

/-- Outcome of iterating `step`: the last state reached (where `step`
made no further progress, or the fuel ran out), or a raised error. -/
inductive RunRes where
  | state (s : State)
  | raised (e : EvalError)

/-- Iterate plain `step` up to a fuel bound, as the driving loops in
src/test_eval.py do between effects. -/
def runSteps : Nat → State → RunRes
  | 0, s => .state s
  | n + 1, s =>
    match step s with
    | .stuck => .state s
    | .raised e => .raised e
    | .next t => runSteps n t

/-- Run a program from its initial state for a given fuel, as the test
drivers in src/test_eval.py do: create the initial state, then iterate
plain `step`. -/
def runProgram (p : Program) (fuel : Nat) : Except EvalError RunRes :=
  match create_initial_state p with
  | .error e => .error e
  | .ok s => .ok (runSteps fuel s)

/-- `.next` recogniser: the step produced a successor state. -/
def StepRes.isNext : StepRes → Bool
  | .next _ => true
  | _ => false

/-- One advance of the driving loop of src/agentlisp.py: a blocked
Interop state consumes the next pending effect-result text through
`step_with_syscall`; every other state takes a plain `step`. -/
def advance : State → List String → StepRes × List String
  | .interop sys cont, r :: rest =>
      (step_with_syscall (.interop sys cont) (some (fun _ => r)), rest)
  | .interop _ _, [] => (.stuck, [])
  | s, rs => (step s, rs)

/-- The full trace of step outcomes obtained by advancing a state
repeatedly, feeding it the effect-result texts in order. -/
def traceRun : Nat → State → List String → List StepRes
  | 0, _, _ => []
  | n + 1, s, rs =>
      match advance s rs with
      | (.next t, rest) => .next t :: traceRun n t rest
      | (res, _) => [res]

/-- Every Interop state's continuation is a Computing state (trivially
true of non-Interop states). -/
def contOK : State → Bool
  | .interop _ (.computing _ _ _) => true
  | .interop _ _ => false
  | _ => true

/-- States reachable from a program's initial state through `step` and
`step_with_syscall` with arbitrary handlers. -/
inductive Reaches (p : Program) : State → Prop
  | init (s : State) : create_initial_state p = .ok s → Reaches p s
  | plain (s t : State) : Reaches p s → step s = .next t → Reaches p t
  | effect (s t : State) (h : Option (SysCall → String)) :
      Reaches p s → step_with_syscall s h = .next t → Reaches p t

/-- identity(x) = x, as in test_unary_function_call of src/test_eval.py. -/
def identityFn : FunctionDef := ⟨"identity", ["x"], .var "x"⟩

/-- main() = (identity 42). -/
def mainIdentity : FunctionDef := ⟨"main", [], .call "identity" [.intLit 42]⟩

/-- The flat-scoping example program of the spec: identity called on 42. -/
def progIdentity : Program := ⟨[identityFn, mainIdentity]⟩

/-- f(x) whose body is the free variable y: y is never a parameter of f. -/
def dynFn : FunctionDef := ⟨"f", ["x"], .var "y"⟩

/-- main() = (let ((y 7)) (f 1)): y is bound only in the caller. -/
def mainDyn : FunctionDef := ⟨"main", [], .letE [("y", .intLit 7)] (.call "f" [.intLit 1])⟩

/-- Program probing whether a callee sees its caller's bindings. -/
def progDyn : Program := ⟨[dynFn, mainDyn]⟩

/-- main() = (let ((x 10) (y x)) y), the spec's sequential-let probe. -/
def mainLetStar : FunctionDef :=
  ⟨"main", [], .letE [("x", .intLit 10), ("y", .var "x")] (.var "y")⟩

/-- Program for the sequential-let probe. -/
def progLetStar : Program := ⟨[mainLetStar]⟩

/-- main() = (read). -/
def mainRead : FunctionDef := ⟨"main", [], .readE⟩

/-- Program for the read round trip. -/
def progRead : Program := ⟨[mainRead]⟩

/-- main() = (ask "question"). -/
def mainAsk : FunctionDef := ⟨"main", [], .ask (.strLit "question")⟩

/-- Program for the ask round trip. -/
def progAsk : Program := ⟨[mainAsk]⟩

/-- main() = (write "hello"). -/
def mainWrite : FunctionDef := ⟨"main", [], .write (.strLit "hello")⟩

/-- Program for the write round trip. -/
def progWrite : Program := ⟨[mainWrite]⟩

/-- Two functions both named main, with distinct bodies, to separate
the first-main rule of get_main from the last-wins rule of the function
table. -/
def progDupMain : Program := ⟨[⟨"main", [], .intLit 1⟩, ⟨"main", [], .intLit 2⟩]⟩

/-- Lifting an apply_context result is never the silent no-progress
outcome. -/
theorem liftStep_isStuck (x : Except EvalError State) :
    (liftStep x).isStuck = false := by
  cases x <;> rfl

/-- Applying a known value to the context stack is never the silent
no-progress outcome. -/
theorem stepValue_isStuck (env : Env) (v : Value) (ctxs : List Context) :
    (stepValue env v ctxs).isStuck = false := by
  cases ctxs with
  | nil => rfl
  | cons c rest => exact liftStep_isStuck _

/-- Every Interop state built by apply_context carries a Computing
continuation, and apply_context otherwise returns Computing states. -/
theorem apply_context_contOK (env : Env) (ctx : Context) (v : Value)
    (ctxs : List Context) (t : State)
    (h : apply_context env ctx v ctxs = .ok t) : contOK t = true := by
  cases ctx with
  | ifCtx thenE elseE =>
      by_cases ht : is_truthy v = true <;>
        simp [apply_context, ht] at h <;> simp [← h, contOK]
  | letCtx n remaining body =>
      cases remaining with
      | nil => simp [apply_context] at h; simp [← h, contOK]
      | cons b rest => simp [apply_context] at h; simp [← h, contOK]
  | writeCtx => simp [apply_context] at h; simp [← h, contOK]
  | tellCtx => simp [apply_context] at h; simp [← h, contOK]
  | askCtx => simp [apply_context] at h; simp [← h, contOK]
  | callCtx f evArgs remaining =>
      cases remaining with
      | nil =>
          simp only [apply_context] at h
          cases hf : env.get_function f with
          | error e => rw [hf] at h; exact absurd h (by simp)
          | ok fd =>
              rw [hf] at h
              by_cases harity : evArgs.length + 1 = fd.params.length
              · simp [harity] at h; simp [← h, contOK]
              · simp [harity] at h
      | cons a rest => simp [apply_context] at h; simp [← h, contOK]

/-- Every successor produced by plain `step` satisfies the
Computing-continuation invariant: the only Interop states it builds
(write/tell/ask via apply_context, and the read branch) carry Computing
continuations. -/
theorem step_contOK (s t : State) (h : step s = .next t) : contOK t = true := by
  cases s with
  | done v => exact absurd h (by simp [step])
  | interop sys cont => exact absurd h (by simp [step])
  | computing env e ctxs =>
      cases e with
      | intLit n =>
          cases ctxs with
          | nil => simp only [step, expr_to_value, stepValue] at h; cases h; rfl
          | cons c rest =>
              simp only [step, expr_to_value, stepValue] at h
              cases hac : apply_context env c (.int n) rest with
              | ok u => rw [hac] at h; cases h; exact apply_context_contOK _ _ _ _ _ hac
              | error e2 => rw [hac] at h; exact absurd h (by simp [liftStep])
      | strLit s2 =>
          cases ctxs with
          | nil => simp only [step, expr_to_value, stepValue] at h; cases h; rfl
          | cons c rest =>
              simp only [step, expr_to_value, stepValue] at h
              cases hac : apply_context env c (.str s2) rest with
              | ok u => rw [hac] at h; cases h; exact apply_context_contOK _ _ _ _ _ hac
              | error e2 => rw [hac] at h; exact absurd h (by simp [liftStep])
      | var name =>
          simp only [step, expr_to_value] at h
          cases hl : env.bindings.lookup name with
          | none => rw [hl] at h; exact absurd h (by simp)
          | some v =>
              rw [hl] at h
              cases ctxs with
              | nil => simp only [stepValue] at h; cases h; rfl
              | cons c rest =>
                  simp only [stepValue] at h
                  cases hac : apply_context env c v rest with
                  | ok u => rw [hac] at h; cases h; exact apply_context_contOK _ _ _ _ _ hac
                  | error e2 => rw [hac] at h; exact absurd h (by simp [liftStep])
      | ifE c t2 e2 => simp only [step, expr_to_value] at h; cases h; rfl
      | letE bindings body =>
          cases bindings with
          | nil => simp only [step, expr_to_value] at h; cases h; rfl
          | cons b rest => simp only [step, expr_to_value] at h; cases h; rfl
      | call f args =>
          cases args with
          | nil =>
              simp only [step, expr_to_value] at h
              cases hf : env.functions.lookup f with
              | none => rw [hf] at h; exact absurd h (by simp)
              | some fd =>
                  rw [hf] at h
                  by_cases hp : fd.params.length = 0
                  · simp [hp] at h; simp [← h, contOK]
                  · simp [hp] at h
          | cons a rest => simp only [step, expr_to_value] at h; cases h; rfl
      | write e2 => simp only [step, expr_to_value] at h; cases h; rfl
      | readE => simp only [step, expr_to_value] at h; cases h; rfl
      | tell e2 => simp only [step, expr_to_value] at h; cases h; rfl
      | ask e2 => simp only [step, expr_to_value] at h; cases h; rfl

/-- step_with_syscall preserves the Computing-continuation invariant. -/
theorem sws_contOK (s t : State) (h : Option (SysCall → String))
    (hs : contOK s = true) (hstep : step_with_syscall s h = .next t) :
    contOK t = true := by
  cases s with
  | done v =>
      simp only [step_with_syscall] at hstep
      exact step_contOK _ _ hstep
  | computing env e ctxs =>
      simp only [step_with_syscall] at hstep
      exact step_contOK _ _ hstep
  | interop sys cont =>
      cases h with
      | none => exact absurd hstep (by simp [step_with_syscall])
      | some handler =>
          cases cont with
          | computing env e2 ctxs =>
              cases sys with
              | readCall v => simp only [step_with_syscall] at hstep; cases hstep; rfl
              | askCall v q => simp only [step_with_syscall] at hstep; cases hstep; rfl
              | writeCall t2 => simp only [step_with_syscall] at hstep; cases hstep; rfl
              | tellCall t2 => simp only [step_with_syscall] at hstep; cases hstep; rfl
          | interop sys2 cont2 => exact absurd hs (by simp [contOK])
          | done v => exact absurd hs (by simp [contOK])

/-- The initial state of any program with a usable main is Computing,
so it satisfies the Computing-continuation invariant. -/
theorem init_contOK (p : Program) (s : State)
    (h : create_initial_state p = .ok s) : contOK s = true := by
  simp only [create_initial_state] at h
  cases hm : p.get_main with
  | none => rw [hm] at h; exact absurd h (by simp)
  | some m =>
      rw [hm] at h
      by_cases hp : m.params.length = 0
      · simp [hp] at h; simp [← h, contOK]
      · simp [hp] at h

/-- Generalised soundness of the function-table fold: any entry found
in the folded table comes from the definition list (with matching name)
or from the accumulator. -/
theorem funcMap_fold_lookup (fs : List FunctionDef)
    (acc : List (String × FunctionDef)) (n : String) (fd : FunctionDef)
    (h : (fs.foldl (fun m f => (f.name, f) :: m) acc).lookup n = some fd) :
    (fd ∈ fs ∧ fd.name = n) ∨ acc.lookup n = some fd := by
  induction fs generalizing acc with
  | nil => exact .inr h
  | cons g gs ih =>
      simp only [List.foldl_cons] at h
      rcases ih ((g.name, g) :: acc) h with hin | hacc
      · exact .inl ⟨List.mem_cons_of_mem _ hin.1, hin.2⟩
      · cases hg : (n == g.name) with
        | true =>
            simp only [List.lookup, hg] at hacc
            cases hacc
            exact .inl ⟨List.mem_cons_self _ _, (beq_iff_eq.mp hg).symm⟩
        | false =>
            simp only [List.lookup, hg] at hacc
            exact .inr hacc

/-- Every entry of the function table is a definition from the program
with the looked-up name. -/
theorem funcMap_lookup_mem (fs : List FunctionDef) (n : String) (fd : FunctionDef)
    (h : (funcMap fs).lookup n = some fd) : fd ∈ fs ∧ fd.name = n := by
  rcases funcMap_fold_lookup fs [] n fd h with hin | hacc
  · exact hin
  · exact absurd hacc (by simp [List.lookup])

/-- In the function table, a later definition overwrites every earlier
definition with the same name, exactly as a Python dict comprehension
does. -/
theorem funcMap_last_wins (fs : List FunctionDef) (f : FunctionDef) :
    (funcMap (fs ++ [f])).lookup f.name = some f := by
  simp [funcMap, List.foldl_append, List.lookup]

/-- get_main returns the first function named "main" in source order:
any earlier functions with other names are skipped, later functions
(duplicate mains included) are never consulted. -/
theorem get_main_first (pre : List FunctionDef) (m : FunctionDef)
    (post : List FunctionDef)
    (hpre : ∀ f ∈ pre, (f.name == "main") = false)
    (hm : m.name = "main") :
    Program.get_main ⟨pre ++ m :: post⟩ = some m := by
  induction pre with
  | nil => simp [Program.get_main, List.find?, hm]
  | cons g gs ih =>
      have hg : (g.name == "main") = false := hpre g (List.mem_cons_self _ _)
      have ihh := ih (fun f hf => hpre f (List.mem_cons_of_mem _ hf))
      simp only [Program.get_main, List.cons_append, List.find?, hg] at ihh ⊢
      exact ihh

/-- Zipping truncates to the shorter list: the zip equals the zip of
the two prefixes of the shorter length. -/
theorem zip_take_min {α β : Type} (ns : List α) (vs : List β) :
    ns.zip vs = (ns.take (min ns.length vs.length)).zip
      (vs.take (min ns.length vs.length)) := by
  induction ns generalizing vs with
  | nil => simp
  | cons n ns ih =>
      cases vs with
      | nil => simp
      | cons v vs => simp [Nat.succ_min_succ, List.zip_cons_cons, ih]

/-- The first components of a zip are the prefix of the first list of
the shorter length. -/
theorem zip_map_fst {α β : Type} (ns : List α) (vs : List β) :
    (ns.zip vs).map Prod.fst = ns.take (min ns.length vs.length) := by
  induction ns generalizing vs with
  | nil => simp
  | cons n ns ih =>
      cases vs with
      | nil => simp
      | cons v vs => simp [Nat.succ_min_succ, List.zip_cons_cons, ih]

/-- Folding extend over pairs never touches the function table. -/
theorem foldl_extend_functions (ps : List (String × Value)) (env : Env) :
    ((ps.foldl (fun e p => e.extend p.1 p.2) env).functions) = env.functions := by
  induction ps generalizing env with
  | nil => rfl
  | cons p ps ih => simp only [List.foldl_cons]; rw [ih]; rfl

/-- Folding extend over pairs leaves the lookup of any name distinct
from every inserted name unchanged. -/
theorem foldl_extend_lookup (ps : List (String × Value)) (env : Env) (n : String)
    (h : ∀ p ∈ ps, (n == p.1) = false) :
    ((ps.foldl (fun e p => e.extend p.1 p.2) env).bindings.lookup n) =
      env.bindings.lookup n := by
  induction ps generalizing env with
  | nil => rfl
  | cons p ps ih =>
      simp only [List.foldl_cons]
      rw [ih _ (fun q hq => h q (List.mem_cons_of_mem _ hq))]
      simp [Env.extend, List.lookup, h p (List.mem_cons_self _ _)]

/-- The empty-bindings environment over progRead's function table. -/
def readEnv0 : Env := Env.mk [] (funcMap progRead.functions)

/-- The initial state of progRead. -/
def readState0 : State := .computing readEnv0 .readE []

/-- progRead after one step: suspended on ReadCall with target
variable "__read_result__". -/
def readState1 : State :=
  .interop (.readCall "__read_result__")
    (.computing (readEnv0.extend "__read_result__" (.str ""))
      (.var "__read_result__") [])

/-- progRead resumed with result text r. -/
def readState2 (r : String) : State :=
  .computing ((readEnv0.extend "__read_result__" (.str "")).extend
    "__read_result__" (.str r)) (.var "__read_result__") []

/-- The empty-bindings environment over progAsk's function table. -/
def askEnv0 : Env := Env.mk [] (funcMap progAsk.functions)

/-- The initial state of progAsk. -/
def askState0 : State := .computing askEnv0 (.ask (.strLit "question")) []

/-- progAsk after pushing the ask context onto the stack. -/
def askState1 : State := .computing askEnv0 (.strLit "question") [.askCtx]

/-- progAsk suspended on AskCall with the stringified question. -/
def askState2 : State :=
  .interop (.askCall "__ask_result__" "question")
    (.computing (askEnv0.extend "__ask_result__" (.str ""))
      (.var "__ask_result__") [])

/-- progAsk resumed with result text r. -/
def askState3 (r : String) : State :=
  .computing ((askEnv0.extend "__ask_result__" (.str "")).extend
    "__ask_result__" (.str r)) (.var "__ask_result__") []

/-- The empty-bindings environment over progWrite's function table. -/
def writeEnv0 : Env := Env.mk [] (funcMap progWrite.functions)

/-- progWrite suspended on WriteCall with the evaluated text. -/
def writeState2 : State :=
  .interop (.writeCall "hello") (.computing writeEnv0 (.strLit "") [])

/-- progWrite resumed: the empty-string literal with an empty stack. -/
def writeState3 : State := .computing writeEnv0 (.strLit "") []

/-- C1 (code evaluation at the failing input): identity(42) called from
main does yield Done(42), but a function body is evaluated in the
caller's environment extended with the parameter bindings, not in a
fresh one: in progDyn, main binds y to 7 and calls f(1) whose body is
the free variable y, and the run completes with Done(7) instead of
raising UndefinedVariable — the callee sees the caller's binding.  The
third conjunct exhibits the offending transition itself: applying the
final argument of the call in progDyn produces a callee environment
that still carries the caller's binding of y. -/
theorem c1_flat_scoping_failing_run :
    runProgram progIdentity 20 = .ok (.state (.done (.int 42))) ∧
    runProgram progDyn 20 = .ok (.state (.done (.int 7))) ∧
    apply_context (Env.mk [("y", .int 7)] (funcMap progDyn.functions))
        (.callCtx "f" [] []) (.int 1) [] =
      .ok (.computing (Env.mk [("x", .int 1), ("y", .int 7)]
        (funcMap progDyn.functions)) (.var "y") []) :=
  ⟨rfl, rfl, rfl⟩

/-- C2: sequential (let*) binding semantics.  When a binding's value is
known and further bindings remain, the next binding's value expression
is evaluated in the environment already extended with the binding just
completed (the first conjunct, which is the inductive step giving every
later binding access to all earlier ones of the same Let), the first
binding of a Let is entered in the current environment (second
conjunct), and the spec's pin-down program Let([(x,10),(y,x)], y) runs
from the initial state to Done(10) (third conjunct). -/
theorem c2_let_sequential :
    (∀ (env : Env) (n : String) (val : Value) (n2 : String) (e2 : Expr)
        (rest : List (String × Expr)) (body : Expr) (ctxs : List Context),
      apply_context env (.letCtx n ((n2, e2) :: rest) body) val ctxs =
        .ok (.computing (env.extend n val) e2
          (Context.letCtx n2 rest body :: ctxs))) ∧
    (∀ (env : Env) (n1 : String) (e1 : Expr) (rest : List (String × Expr))
        (body : Expr) (ctxs : List Context),
      step (.computing env (.letE ((n1, e1) :: rest) body) ctxs) =
        .next (.computing env e1 (Context.letCtx n1 rest body :: ctxs))) ∧
    runProgram progLetStar 20 = .ok (.state (.done (.int 10))) :=
  ⟨fun _ _ _ _ _ _ _ _ => rfl, fun _ _ _ _ _ _ => rfl, rfl⟩

/-- C3: Read/Ask round trip.  Read transitions in one step, with no
argument evaluation, to an Interop carrying ReadCall with target
"__read_result__"; Ask first evaluates its question and suspends with
AskCall carrying the stringified question and target "__ask_result__";
resuming either through step_with_syscall extends the continuation's
environment with the target variable bound to the handler's result
text; and the top-level programs (read) and (ask "question") resumed
with any result text r run to Done(r). -/
theorem c3_read_ask_round_trip :
    (∀ (env : Env) (ctxs : List Context),
      step (.computing env .readE ctxs) =
        .next (.interop (.readCall "__read_result__")
          (.computing (env.extend "__read_result__" (.str ""))
            (.var "__read_result__") ctxs))) ∧
    (∀ (env : Env) (e : Expr) (ctxs : List Context),
      step (.computing env (.ask e) ctxs) =
        .next (.computing env e (Context.askCtx :: ctxs))) ∧
    (∀ (env : Env) (v : Value) (ctxs : List Context),
      apply_context env .askCtx v ctxs =
        .ok (.interop (.askCall "__ask_result__" (stringify v))
          (.computing (env.extend "__ask_result__" (.str ""))
            (.var "__ask_result__") ctxs))) ∧
    (∀ (v : String) (env : Env) (e : Expr) (ctxs : List Context)
        (h : SysCall → String),
      step_with_syscall (.interop (.readCall v) (.computing env e ctxs))
          (some h) =
        .next (.computing (env.extend v (.str (h (.readCall v)))) e ctxs)) ∧
    (∀ (v q : String) (env : Env) (e : Expr) (ctxs : List Context)
        (h : SysCall → String),
      step_with_syscall (.interop (.askCall v q) (.computing env e ctxs))
          (some h) =
        .next (.computing (env.extend v (.str (h (.askCall v q)))) e ctxs)) ∧
    (∀ r : String,
      create_initial_state progRead = .ok readState0 ∧
      step readState0 = .next readState1 ∧
      step_with_syscall readState1 (some fun _ => r) = .next (readState2 r) ∧
      runSteps 2 (readState2 r) = .state (.done (.str r))) ∧
    (∀ r : String,
      create_initial_state progAsk = .ok askState0 ∧
      step askState0 = .next askState1 ∧
      step askState1 = .next askState2 ∧
      step_with_syscall askState2 (some fun _ => r) = .next (askState3 r) ∧
      runSteps 2 (askState3 r) = .state (.done (.str r))) :=
  ⟨fun _ _ => rfl, fun _ _ _ => rfl, fun _ _ _ => rfl,
   fun _ _ _ _ _ => rfl, fun _ _ _ _ _ _ => rfl,
   fun _ => ⟨rfl, rfl, rfl, rfl⟩, fun _ => ⟨rfl, rfl, rfl, rfl, rfl⟩⟩

/-- C4: Write/Tell always resume to empty text.  Applying an evaluated
argument v to a write (resp. tell) context suspends with the
stringified text and a continuation fixed to the empty-string literal;
resuming a WriteCall or TellCall through step_with_syscall discards the
handler's result and returns the continuation unchanged; and the
top-level (write "hello") reaches Interop(WriteCall "hello", _) and,
resumed with any handler, runs to Done(""). -/
theorem c4_write_tell_empty_result :
    (∀ (env : Env) (v : Value) (ctxs : List Context),
      apply_context env .writeCtx v ctxs =
        .ok (.interop (.writeCall (stringify v))
          (.computing env (.strLit "") ctxs))) ∧
    (∀ (env : Env) (v : Value) (ctxs : List Context),
      apply_context env .tellCtx v ctxs =
        .ok (.interop (.tellCall (stringify v))
          (.computing env (.strLit "") ctxs))) ∧
    (∀ (t : String) (cont : State) (h : SysCall → String),
      step_with_syscall (.interop (.writeCall t) cont) (some h) = .next cont) ∧
    (∀ (t : String) (cont : State) (h : SysCall → String),
      step_with_syscall (.interop (.tellCall t) cont) (some h) = .next cont) ∧
    runProgram progWrite 5 = .ok (.state writeState2) ∧
    (∀ h : SysCall → String,
      step_with_syscall writeState2 (some h) = .next writeState3 ∧
      runSteps 2 writeState3 = .state (.done (.str ""))) :=
  ⟨fun _ _ _ => rfl, fun _ _ _ => rfl,
   fun _ _ _ => rfl, fun _ _ _ => rfl, rfl,
   fun _ => ⟨rfl, rfl⟩⟩

/-- C5: determinism.  Stepping two fresh states created from the same
program in lockstep, consuming the same effect-result texts at each
Interop, produces identical traces of step outcomes at every step:
step and step_with_syscall are pure functions of their inputs. -/
theorem c5_determinism (P : Program) (R : List String) (n : Nat)
    (s1 s2 : State) (h1 : create_initial_state P = .ok s1)
    (h2 : create_initial_state P = .ok s2) :
    traceRun n s1 R = traceRun n s2 R := by
  rw [h1] at h2
  cases h2
  rfl

/-- Witness for C5 at the sequential-let program with a one-element
effect-result list and three lockstep steps. -/
theorem c5_determinism_witness :
    traceRun 3 (.computing (Env.mk [] (funcMap progLetStar.functions))
        mainLetStar.body []) ["r"] =
      traceRun 3 (.computing (Env.mk [] (funcMap progLetStar.functions))
        mainLetStar.body []) ["r"] :=
  c5_determinism progLetStar ["r"] 3 _ _ rfl rfl

/-- C6 counterexample: a Computing state holding the defined Expr
variant Variable("missing") on which step does not return a successor
state — it raises UndefinedVariable instead, so "step returns some
successor state for every Computing state" fails as stated. -/
theorem c6_counterexample :
    step (.computing (Env.mk [] []) (.var "missing") []) =
      .raised (.undefinedVariable "missing") ∧
    (step (.computing (Env.mk [] []) (.var "missing") [])).isNext = false :=
  ⟨rfl, rfl⟩

/-- C6 amended: step of Done and of Interop yields nothing further, and
for every Computing state step either returns a successor state or
raises a fatal error — it never silently returns no progress (the
trailing no-progress branch of step is unreachable for Computing
states). -/
theorem c6_progress_blocking :
    (∀ v : Value, step (.done v) = .stuck) ∧
    (∀ (sys : SysCall) (cont : State), step (.interop sys cont) = .stuck) ∧
    (∀ (env : Env) (e : Expr) (ctxs : List Context),
      (step (.computing env e ctxs)).isStuck = false) := by
  refine ⟨fun v => rfl, fun sys cont => rfl, fun env e ctxs => ?_⟩
  cases e with
  | intLit n => exact stepValue_isStuck env (.int n) ctxs
  | strLit s => exact stepValue_isStuck env (.str s) ctxs
  | var name =>
      show ((match env.bindings.lookup name with
        | none => StepRes.raised (.undefinedVariable name)
        | some val => stepValue env val ctxs)).isStuck = false
      cases env.bindings.lookup name with
      | none => rfl
      | some v => exact stepValue_isStuck env v ctxs
  | ifE c t e => rfl
  | letE bindings body => cases bindings <;> rfl
  | call f args =>
      cases args with
      | nil =>
          show ((match env.functions.lookup f with
            | none => StepRes.raised (.undefinedFunction f)
            | some funcDef =>
                if funcDef.params.length ≠ 0 then
                  StepRes.raised (.arityMismatch f funcDef.params.length 0)
                else
                  StepRes.next (.computing (Env.mk env.bindings env.functions)
                    funcDef.body ctxs))).isStuck = false
          cases env.functions.lookup f with
          | none => rfl
          | some fd =>
              by_cases hp : fd.params.length = 0
              · simp [hp, StepRes.isStuck]
              · simp [hp, StepRes.isStuck]
      | cons a rest => rfl
  | write e => rfl
  | readE => rfl
  | tell e => rfl
  | ask e => rfl

/-- C7: fatal lookups.  An unbound Variable raises UndefinedVariable; a
call (zero-argument, or argument application via the call context) to a
name absent from the function table raises UndefinedFunction; and a
call whose argument count differs from the declared parameter count
raises ArityMismatch — each time as a raised error, never as a
successor state. -/
theorem c7_fatal_lookups :
    (∀ (env : Env) (name : String) (ctxs : List Context),
      env.bindings.lookup name = none →
      step (.computing env (.var name) ctxs) =
        .raised (.undefinedVariable name)) ∧
    (∀ (env : Env) (f : String) (ctxs : List Context),
      env.functions.lookup f = none →
      step (.computing env (.call f []) ctxs) =
        .raised (.undefinedFunction f)) ∧
    (∀ (env : Env) (f : String) (evArgs : List Value) (v : Value)
        (ctxs : List Context),
      env.functions.lookup f = none →
      apply_context env (.callCtx f evArgs []) v ctxs =
        .error (.undefinedFunction f)) ∧
    (∀ (env : Env) (f : String) (ctxs : List Context) (fd : FunctionDef),
      env.functions.lookup f = some fd → fd.params.length ≠ 0 →
      step (.computing env (.call f []) ctxs) =
        .raised (.arityMismatch f fd.params.length 0)) ∧
    (∀ (env : Env) (f : String) (evArgs : List Value) (v : Value)
        (ctxs : List Context) (fd : FunctionDef),
      env.functions.lookup f = some fd →
      (evArgs ++ [v]).length ≠ fd.params.length →
      apply_context env (.callCtx f evArgs []) v ctxs =
        .error (.arityMismatch f fd.params.length (evArgs ++ [v]).length)) := by
  refine ⟨?_, ?_, ?_, ?_, ?_⟩
  · intro env name ctxs h
    simp [step, expr_to_value, h]
  · intro env f ctxs h
    simp [step, expr_to_value, h]
  · intro env f evArgs v ctxs h
    simp [apply_context, Env.get_function, h]
  · intro env f ctxs fd h hp
    simp [step, expr_to_value, h, hp]
  · intro env f evArgs v ctxs fd h hl
    have hl2 : ¬evArgs.length + 1 = fd.params.length := by
      simpa using hl
    simp only [apply_context, Env.get_function, h]
    simp [hl2]

/-- Witness for C7: an empty environment leaves "missing" unbound and
"undefined" undeclared; a table holding only a one-parameter foo makes
the zero-argument call (foo) an arity mismatch, and applying a second
argument to foo through the call context mismatches as well. -/
theorem c7_fatal_lookups_witness :
    step (.computing (Env.mk [] []) (.var "missing") []) =
      .raised (.undefinedVariable "missing") ∧
    step (.computing (Env.mk [] []) (.call "undefined" []) []) =
      .raised (.undefinedFunction "undefined") ∧
    apply_context (Env.mk [] []) (.callCtx "undefined" [] []) (.int 1) [] =
      .error (.undefinedFunction "undefined") ∧
    step (.computing (Env.mk [] [("foo", ⟨"foo", ["x"], .var "x"⟩)])
        (.call "foo" []) []) = .raised (.arityMismatch "foo" 1 0) ∧
    apply_context (Env.mk [] [("foo", ⟨"foo", ["x"], .var "x"⟩)])
        (.callCtx "foo" [.int 1] []) (.int 2) [] =
      .error (.arityMismatch "foo" 1 2) :=
  ⟨c7_fatal_lookups.1 (Env.mk [] []) "missing" [] rfl,
   c7_fatal_lookups.2.1 (Env.mk [] []) "undefined" [] rfl,
   c7_fatal_lookups.2.2.1 (Env.mk [] []) "undefined" [] (.int 1) [] rfl,
   c7_fatal_lookups.2.2.2.1 (Env.mk [] [("foo", ⟨"foo", ["x"], .var "x"⟩)])
     "foo" [] ⟨"foo", ["x"], .var "x"⟩ rfl (by decide),
   c7_fatal_lookups.2.2.2.2 (Env.mk [] [("foo", ⟨"foo", ["x"], .var "x"⟩)])
     "foo" [.int 1] (.int 2) [] ⟨"foo", ["x"], .var "x"⟩ rfl (by decide)⟩

/-- C8: extendMany truncates to the shorter sequence.  It applies
extend pairwise in order (head recurrence, second conjunct), consumes
exactly min(len names, len values) pairs (truncation, fifth conjunct),
is total — the nil cases return the environment unchanged rather than
erroring (third and fourth conjuncts) — never touches the shared
function table (first conjunct), and leaves the lookup of every name
outside the applied prefix of the name list unchanged (last
conjunct). -/
theorem c8_extend_many :
    (∀ (env : Env) (ns : List String) (vs : List Value),
      (env.extend_many ns vs).functions = env.functions) ∧
    (∀ (env : Env) (n : String) (v : Value) (ns : List String)
        (vs : List Value),
      env.extend_many (n :: ns) (v :: vs) = (env.extend n v).extend_many ns vs) ∧
    (∀ (env : Env) (ns : List String), env.extend_many ns [] = env) ∧
    (∀ (env : Env) (vs : List Value), env.extend_many [] vs = env) ∧
    (∀ (env : Env) (ns : List String) (vs : List Value),
      env.extend_many ns vs =
        env.extend_many (ns.take (min ns.length vs.length))
          (vs.take (min ns.length vs.length))) ∧
    (∀ (env : Env) (ns : List String) (vs : List Value) (n : String),
      n ∉ ns.take (min ns.length vs.length) →
      (env.extend_many ns vs).bindings.lookup n = env.bindings.lookup n) := by
  refine ⟨?_, ?_, ?_, ?_, ?_, ?_⟩
  · intro env ns vs
    exact foldl_extend_functions _ _
  · intro env n v ns vs
    rfl
  · intro env ns
    simp [Env.extend_many]
  · intro env vs
    rfl
  · intro env ns vs
    simp only [Env.extend_many]
    rw [← zip_take_min]
  · intro env ns vs n hn
    apply foldl_extend_lookup
    intro p hp
    have hfst : p.1 ∈ ns.take (min ns.length vs.length) := by
      rw [← zip_map_fst ns vs]
      exact List.mem_map_of_mem _ hp
    cases hq : (n == p.1) with
    | false => rfl
    | true => exact absurd (beq_iff_eq.mp hq ▸ hfst) hn

/-- Witness for C8: with two names, one value and an unrelated prior
binding of "a", only the first pair is applied, the function table is
untouched, and the lookup of "a" is unchanged. -/
theorem c8_extend_many_witness :
    ((Env.mk [("a", .int 1)] []).extend_many ["x", "y"] [.int 2]).functions
        = [] ∧
    (Env.mk [("a", .int 1)] []).extend_many ["x", "y"] [.int 2] =
      (Env.mk [("a", .int 1)] []).extend_many ["x"] [.int 2] ∧
    ((Env.mk [("a", .int 1)] []).extend_many ["x", "y"]
        [.int 2]).bindings.lookup "a" = some (.int 1) :=
  ⟨c8_extend_many.1 (Env.mk [("a", .int 1)] []) ["x", "y"] [.int 2],
   c8_extend_many.2.2.2.2.1 (Env.mk [("a", .int 1)] []) ["x", "y"] [.int 2],
   ((c8_extend_many.2.2.2.2.2 (Env.mk [("a", .int 1)] []) ["x", "y"]
     [.int 2] "a" (by decide)).trans rfl)⟩

/-- C9 counterexample: with two functions named main, the initial body
is the first main's (IntLiteral 1), but the function table does not
ignore the later duplicate — the dict comprehension makes the later
definition (body IntLiteral 2) the table entry for "main", refuting
"later duplicates of main are ignored in favor of the first" as a
statement about the function table. -/
theorem c9_counterexample :
    create_initial_state progDupMain =
      .ok (.computing (Env.mk [] (funcMap progDupMain.functions))
        (.intLit 1) []) ∧
    (funcMap progDupMain.functions).lookup "main" =
      some ⟨"main", [], .intLit 2⟩ :=
  ⟨rfl, rfl⟩

/-- C9 amended: for a program whose first main takes no parameters,
createInitialState returns Computing over the body of the first main in
source order, with empty bindings and the function table of the whole
program; get_main really does pick the first function named "main";
every table entry is a definition from the program bearing the
looked-up name, but for duplicate names the LAST definition in source
order is the one the table retains; and creation fails fatally exactly
when there is no main or the first main has nonzero parameters. -/
theorem c9_create_initial_state :
    (∀ (p : Program) (m : FunctionDef), p.get_main = some m →
      m.params = [] →
      create_initial_state p =
        .ok (.computing (Env.mk [] (funcMap p.functions)) m.body [])) ∧
    (∀ (pre : List FunctionDef) (m : FunctionDef) (post : List FunctionDef),
      (∀ f ∈ pre, (f.name == "main") = false) → m.name = "main" →
      Program.get_main ⟨pre ++ m :: post⟩ = some m) ∧
    (∀ (fs : List FunctionDef) (n : String) (fd : FunctionDef),
      (funcMap fs).lookup n = some fd → fd ∈ fs ∧ fd.name = n) ∧
    (∀ (fs : List FunctionDef) (f : FunctionDef),
      (funcMap (fs ++ [f])).lookup f.name = some f) ∧
    (∀ p : Program, p.get_main = none →
      create_initial_state p = .error .noMainFunction) ∧
    (∀ (p : Program) (m : FunctionDef), p.get_main = some m →
      m.params ≠ [] → create_initial_state p = .error .mainTakesParams) := by
  refine ⟨?_, get_main_first, funcMap_lookup_mem, funcMap_last_wins, ?_, ?_⟩
  · intro p m h1 h2
    simp [create_initial_state, h1, h2]
  · intro p h
    simp [create_initial_state, h]
  · intro p m h1 h2
    have hl : m.params.length ≠ 0 := by
      intro hz
      exact h2 (List.eq_nil_of_length_eq_zero hz)
    simp [create_initial_state, h1, hl]

/-- Witness for C9: the identity program has a usable main as its
second function; progDupMain's table entry for "main" is a member of
the program named "main"; appending a duplicate overwrites the table
entry; a program without main and one whose main takes a parameter
fail fatally. -/
theorem c9_create_initial_state_witness :
    create_initial_state progIdentity =
      .ok (.computing (Env.mk [] (funcMap progIdentity.functions))
        mainIdentity.body []) ∧
    Program.get_main ⟨[identityFn] ++ mainIdentity :: []⟩ =
      some mainIdentity ∧
    ((⟨"main", [], .intLit 2⟩ : FunctionDef) ∈ progDupMain.functions ∧
      (⟨"main", [], .intLit 2⟩ : FunctionDef).name = "main") ∧
    (funcMap ([⟨"main", [], .intLit 1⟩] ++
      [(⟨"main", [], .intLit 2⟩ : FunctionDef)])).lookup
        (FunctionDef.name ⟨"main", [], .intLit 2⟩) =
      some ⟨"main", [], .intLit 2⟩ ∧
    create_initial_state ⟨[identityFn]⟩ = .error .noMainFunction ∧
    create_initial_state ⟨[⟨"main", ["x"], .var "x"⟩]⟩ =
      .error .mainTakesParams :=
  ⟨c9_create_initial_state.1 progIdentity mainIdentity rfl rfl,
   c9_create_initial_state.2.1 [identityFn] mainIdentity []
     (by decide) rfl,
   c9_create_initial_state.2.2.1 progDupMain.functions "main"
     ⟨"main", [], .intLit 2⟩ rfl,
   c9_create_initial_state.2.2.2.1 [⟨"main", [], .intLit 1⟩]
     ⟨"main", [], .intLit 2⟩,
   c9_create_initial_state.2.2.2.2.1 ⟨[identityFn]⟩ rfl,
   c9_create_initial_state.2.2.2.2.2 ⟨[⟨"main", ["x"], .var "x"⟩]⟩
     ⟨"main", ["x"], .var "x"⟩ rfl (by decide)⟩

/-- C10: Computing-continuation invariant.  In every state reachable
from a program's initial state through step and step_with_syscall (with
arbitrary handlers), each Interop state's continuation is a Computing
state; hence the non-Computing fallback branches of the
ReadCall/AskCall handling in step_with_syscall are unreachable from
reachable states. -/
theorem c10_interop_continuation_computing (p : Program) (s : State)
    (h : Reaches p s) : contOK s = true := by
  induction h with
  | init s hs => exact init_contOK p s hs
  | plain s t hs hstep ih => exact step_contOK s t hstep
  | effect s t hh hs hstep ih => exact sws_contOK s t hh ih hstep

/-- Witness for C10 at a reachable Interop state: progRead's state
after one step is Interop(ReadCall, continuation), and its continuation
is Computing. -/
theorem c10_interop_continuation_computing_witness :
    contOK readState1 = true :=
  c10_interop_continuation_computing progRead readState1
    (Reaches.plain readState0 readState1 (Reaches.init readState0 rfl) rfl)
